import Mathlib

/-!
Verification development for the remote-session lifecycle manager of the
issue-automation repository.  The Python sources are shallowly embedded as
executable Lean definitions:

* `Json` / `jsonLoads` model the JSON values handled by `json.loads`;
* `extract_json_from_message`, `parse_scoping_from_messages`,
  `parse_execution_from_messages` embed `app/clients/message_parser.py`;
* `retry_on_server_error` embeds the synchronous retry wrapper and
  `poll_session` the polling loop of `app/clients/devin_client.py`;
* `store_session` and `get_session_status` embed the database bookkeeping of
  `app/api/routes.py` (`scope_issue`/`execute_issue` session storage and the
  `/sessions/{id}` status endpoint).

Python exceptions are modelled with `Except`; wall-clock time in the polling
loop advances by the slept intervals, and unbounded `while` loops take a fuel
argument.  Machine floats are modelled by `ℚ` (the claims under study never
depend on rounding).
-/

namespace IssueAuto

/-! ## JSON values (the shapes produced by the Python `json.loads`) -/

/-- A JSON value as produced by `json.loads`: `null`, booleans, numbers,
strings, arrays and objects (an object keeps its key/value pairs in order;
lookups take the last binding, matching Python dict construction). -/
inductive Json where
  | null : Json
  | bool (b : Bool) : Json
  | num (q : ℚ) : Json
  | str (s : String) : Json
  | arr (elems : List Json) : Json
  | obj (kvs : List (String × Json)) : Json

/-- Python truthiness of a JSON value (`None`, `False`, `0`, `""`, `[]`, `{}`
are falsy). -/
def jsonTruthy : Json → Bool
  | .null => false
  | .bool b => b
  | .num q => q ≠ 0
  | .str s => s ≠ ""
  | .arr elems => ¬elems.isEmpty
  | .obj kvs => ¬kvs.isEmpty

/-- Truthiness of an optional JSON value (`None` is falsy). -/
def optJsonTruthy : Option Json → Bool
  | some j => jsonTruthy j
  | none => false

/-- Membership of a key in a parsed object, the Python `key in data` on a dict. -/
def objHasKey (kvs : List (String × Json)) (k : String) : Bool :=
  kvs.any (fun p => p.1 = k)

/-- `data.get(k)` on a parsed object: the last binding wins, `none` when the
key is absent (Python returns `None` then). -/
def objGet (kvs : List (String × Json)) (k : String) : Option Json :=
  (kvs.reverse.find? (fun p => p.1 = k)).map (·.2)

/-! ## A model of `json.loads` -/

/-- JSON whitespace (`json.loads` skips exactly space, tab, newline, return). -/
def isJsonWs (c : Char) : Bool :=
  c = ' ' ∨ c = '\t' ∨ c = '\n' ∨ c = '\r'

/-- Drop leading JSON whitespace. -/
def skipWs : List Char → List Char
  | [] => []
  | c :: cs => if isJsonWs c then skipWs cs else c :: cs

/-- Consume a run of decimal digits, returning its value, its length and the
rest of the input. -/
def parseDigits : List Char → ℕ → ℕ → ℕ × ℕ × List Char
  | c :: cs, acc, n =>
      if c.isDigit then parseDigits cs (acc * 10 + (c.toNat - 48)) (n + 1)
      else (acc, n, c :: cs)
  | [], acc, n => (acc, n, [])

/-- Parse the integer part of a JSON number (`0`, or a nonzero digit followed
by digits; leading zeros are rejected as in `json.loads`). -/
def parseIntPart : List Char → Option (ℕ × List Char)
  | '0' :: cs =>
      match cs with
      | c :: _ => if c.isDigit then none else some (0, cs)
      | [] => some (0, [])
  | c :: cs =>
      if c.isDigit ∧ c ≠ '0' then
        let (v, _, rest) := parseDigits (c :: cs) 0 0
        some (v, rest)
      else none
  | [] => none

/-- Parse the optional fraction part, returning (numerator, digit count). -/
def parseFracPart : List Char → Option ((ℕ × ℕ) × List Char)
  | '.' :: cs =>
      match cs with
      | c :: _ =>
          if c.isDigit then
            let (v, n, rest) := parseDigits cs 0 0
            some ((v, n), rest)
          else none
      | [] => none
  | cs => some ((0, 0), cs)

/-- Parse the optional exponent part, returning the signed exponent. -/
def parseExpPart : List Char → Option (ℤ × List Char)
  | c :: cs =>
      if c = 'e' ∨ c = 'E' then
        let (sgn, cs') : ℤ × List Char :=
          match cs with
          | '+' :: cs' => (1, cs')
          | '-' :: cs' => (-1, cs')
          | cs' => (1, cs')
        match cs' with
        | d :: _ =>
            if d.isDigit then
              let (v, _, rest) := parseDigits cs' 0 0
              some (sgn * v, rest)
            else none
        | [] => none
      else some (0, c :: cs)
  | [] => some (0, [])

/-- Parse a JSON number into `ℚ` (Python holds it as an int or float; the
claims under study never depend on binary-float rounding). -/
def parseNumber (cs : List Char) : Option (Json × List Char) :=
  let (neg, cs₁) : Bool × List Char :=
    match cs with
    | '-' :: rest => (true, rest)
    | rest => (false, rest)
  match parseIntPart cs₁ with
  | none => none
  | some (ip, cs₂) =>
    match parseFracPart cs₂ with
    | none => none
    | some ((fv, fn), cs₃) =>
      match parseExpPart cs₃ with
      | none => none
      | some (ex, cs₄) =>
        let base : ℚ := (ip : ℚ) + (fv : ℚ) / ((10 : ℚ) ^ fn)
        let scaled : ℚ := base * (10 : ℚ) ^ ex
        some (.num (if neg then -scaled else scaled), cs₄)

/-- Value of a hexadecimal digit. -/
def hexVal (c : Char) : Option ℕ :=
  if '0' ≤ c ∧ c ≤ '9' then some (c.toNat - 48)
  else if 'a' ≤ c ∧ c ≤ 'f' then some (c.toNat - 87)
  else if 'A' ≤ c ∧ c ≤ 'F' then some (c.toNat - 55)
  else none

/-- Parse the body of a JSON string after the opening quote. -/
def parseStringBody : ℕ → List Char → List Char → Option (String × List Char)
  | _, '"' :: cs, acc => some (String.mk acc.reverse, cs)
  | fuel + 1, '\\' :: e :: cs, acc =>
      match e with
      | '"' => parseStringBody fuel cs ('"' :: acc)
      | '\\' => parseStringBody fuel cs ('\\' :: acc)
      | '/' => parseStringBody fuel cs ('/' :: acc)
      | 'b' => parseStringBody fuel cs ('\x08' :: acc)
      | 'f' => parseStringBody fuel cs ('\x0c' :: acc)
      | 'n' => parseStringBody fuel cs ('\n' :: acc)
      | 'r' => parseStringBody fuel cs ('\r' :: acc)
      | 't' => parseStringBody fuel cs ('\t' :: acc)
      | 'u' =>
          match cs with
          | h₁ :: h₂ :: h₃ :: h₄ :: cs' =>
              match hexVal h₁, hexVal h₂, hexVal h₃, hexVal h₄ with
              | some a, some b, some c, some d =>
                  parseStringBody fuel cs'
                    (Char.ofNat (((a * 16 + b) * 16 + c) * 16 + d) :: acc)
              | _, _, _, _ => none
          | _ => none
      | _ => none
  | fuel + 1, c :: cs, acc => parseStringBody fuel cs (c :: acc)
  | _, _, _ => none

mutual

/-- Parse one JSON value (fuel bounds the recursion depth; callers supply
`input length + 1`, which always suffices since every nesting level consumes
at least one character). -/
def parseVal : ℕ → List Char → Option (Json × List Char)
  | 0, _ => none
  | fuel + 1, cs =>
    match skipWs cs with
    | 'n' :: 'u' :: 'l' :: 'l' :: rest => some (.null, rest)
    | 't' :: 'r' :: 'u' :: 'e' :: rest => some (.bool true, rest)
    | 'f' :: 'a' :: 'l' :: 's' :: 'e' :: rest => some (.bool false, rest)
    | '"' :: rest =>
        match parseStringBody (rest.length + 1) rest [] with
        | some (s, rest') => some (.str s, rest')
        | none => none
    | '{' :: rest =>
        (match skipWs rest with
         | '}' :: rest' => some (.obj [], rest')
         | _ => match parseMembers fuel rest with
                | some (kvs, rest') => some (.obj kvs, rest')
                | none => none)
    | '[' :: rest =>
        (match skipWs rest with
         | ']' :: rest' => some (.arr [], rest')
         | _ => match parseElems fuel rest with
                | some (elems, rest') => some (.arr elems, rest')
                | none => none)
    | cs' => parseNumber cs'

/-- Parse the (non-empty) member list of a JSON object, up to and including
the closing brace. -/
def parseMembers : ℕ → List Char → Option (List (String × Json) × List Char)
  | 0, _ => none
  | fuel + 1, cs =>
    match skipWs cs with
    | '"' :: rest =>
        match parseStringBody (rest.length + 1) rest [] with
        | some (k, rest') =>
            (match skipWs rest' with
             | ':' :: rest'' =>
                 match parseVal fuel rest'' with
                 | some (v, rest₃) =>
                     (match skipWs rest₃ with
                      | ',' :: rest₄ =>
                          (match parseMembers fuel rest₄ with
                           | some (kvs, rest₅) => some ((k, v) :: kvs, rest₅)
                           | none => none)
                      | '}' :: rest₄ => some ([(k, v)], rest₄)
                      | _ => none)
                 | none => none
             | _ => none)
        | none => none
    | _ => none

/-- Parse the (non-empty) element list of a JSON array, up to and including
the closing bracket. -/
def parseElems : ℕ → List Char → Option (List Json × List Char)
  | 0, _ => none
  | fuel + 1, cs =>
      match parseVal fuel cs with
      | some (v, rest) =>
          (match skipWs rest with
           | ',' :: rest' =>
               (match parseElems fuel rest' with
                | some (elems, rest'') => some (v :: elems, rest'')
                | none => none)
           | ']' :: rest' => some ([v], rest')
           | _ => none)
      | none => none

end

/-- Model of `json.loads`: parse a complete JSON document, requiring only
trailing whitespace after the value; `none` models `json.JSONDecodeError`. -/
def jsonLoads (s : String) : Option Json :=
  match parseVal (s.data.length + 1) s.data with
  | some (j, rest) => if skipWs rest = [] then some j else none
  | none => none

/-! ## The two regular expressions of `message_parser.py`

`re.findall(r'```json\s*\n(.*?)\n```', message, re.DOTALL)` and
`re.findall(r'\{[^{}]*(?:\{[^{}]*\}[^{}]*)*\}', message, re.DOTALL)` are
embedded as direct deterministic scanners with the same match semantics
(leftmost non-overlapping matches; greedy `\s*` backtracking in the fenced
pattern; the raw-object pattern needs no backtracking because `[^{}]*` runs
are maximal and the next character forces the unique continuation). -/

/-- the Python `\s` on ASCII text: space, tab, newline, return, vertical tab,
form feed. -/
def isPyWs (c : Char) : Bool :=
  c = ' ' ∨ c = '\t' ∨ c = '\n' ∨ c = '\r' ∨ c = '\x0b' ∨ c = '\x0c'

/-- Is `pat` a prefix of `cs`? -/
def leadingMatch : List Char → List Char → Bool
  | [], _ => true
  | _ :: _, [] => false
  | p :: ps, c :: cs => p = c ∧ leadingMatch ps cs

/-- Index of the leftmost occurrence of `pat` in `cs`, if any. -/
def findSub (pat : List Char) : List Char → Option ℕ
  | [] => if leadingMatch pat [] then some 0 else none
  | c :: cs =>
      if leadingMatch pat (c :: cs) then some 0
      else (findSub pat cs).map (· + 1)

/-- Substring test, the Python `needle in haystack` on strings. -/
def strContains (haystack needle : List Char) : Bool :=
  (findSub needle haystack).isSome

/-- The terminator `"\n```"` of a fenced block. -/
def fenceClose : List Char := ['\n', '`', '`', '`']

/-- Greedy backtracking of `\s*\n` inside the whitespace run that follows
`"```json"`: try each newline position `k` in the run from the rightmost
leftwards; for the first `k` such that `"\n```"` occurs later in the text,
the capture runs from after that newline to just before that occurrence.
Returns the capture and the text after the full match. -/
def fencedTryK (rest : List Char) : ℕ → Option (List Char × List Char)
  | 0 => none
  | k + 1 =>
      if rest.get? k = some '\n' then
        let tail := rest.drop (k + 1)
        match findSub fenceClose tail with
        | some i => some (tail.take i, tail.drop (i + 4))
        | none => fencedTryK rest k
      else fencedTryK rest k

/-- Length of the leading run of characters satisfying `p`. -/
def countWhile (p : Char → Bool) : List Char → ℕ
  | [] => 0
  | c :: cs => if p c then countWhile p cs + 1 else 0

/-- All captures of `re.findall(r'```json\s*\n(.*?)\n```', ·, re.DOTALL)`,
scanning left to right, resuming after each full match. -/
def fencedFindAll : ℕ → List Char → List (List Char)
  | 0, _ => []
  | _, [] => []
  | fuel + 1, c :: cs =>
      if leadingMatch "```json".data (c :: cs) then
        let rest := (c :: cs).drop 7
        match fencedTryK rest (countWhile isPyWs rest) with
        | some (cap, rest') => cap :: fencedFindAll fuel rest'
        | none => fencedFindAll fuel cs
      else fencedFindAll fuel cs

/-- Split off the maximal leading run of non-brace characters (`[^{}]*`). -/
def splitNonBrace (cs : List Char) : List Char × List Char :=
  (cs.takeWhile (fun c => ¬(c = '{' ∨ c = '}')),
   cs.dropWhile (fun c => ¬(c = '{' ∨ c = '}')))

/-- Continuation of a raw-object match after the opening brace and the first
non-brace run: repeatedly consume a complete one-level group `\{[^{}]*\}`
followed by a non-brace run, until the closing brace.  Returns the matched
characters and the rest of the text. -/
def rawAttemptAux : ℕ → List Char → Option (List Char × List Char)
  | _, '}' :: cs => some (['}'], cs)
  | fuel + 1, '{' :: cs =>
      let (a, r) := splitNonBrace cs
      (match r with
       | '}' :: r' =>
           let (b, r'') := splitNonBrace r'
           (match rawAttemptAux fuel r'' with
            | some (m, rest) => some ('{' :: (a ++ '}' :: (b ++ m)), rest)
            | none => none)
       | _ => none)
  | _, _ => none

/-- Attempt the raw-object pattern `\{[^{}]*(?:\{[^{}]*\}[^{}]*)*\}` at the
head of the text. -/
def rawAttempt : List Char → Option (List Char × List Char)
  | '{' :: cs =>
      let (a, r) := splitNonBrace cs
      (match rawAttemptAux (r.length + 1) r with
       | some (m, rest) => some ('{' :: (a ++ m), rest)
       | none => none)
  | _ => none

/-- All matches of the raw-object pattern, scanning left to right, resuming
after each match. -/
def rawFindAll : ℕ → List Char → List (List Char)
  | 0, _ => []
  | _, [] => []
  | fuel + 1, c :: cs =>
      match rawAttempt (c :: cs) with
      | some (m, rest) => m :: rawFindAll fuel rest
      | none => rawFindAll fuel cs

/-! ## `message_parser.py` -/

/-- The key allow-list hard-coded in the raw-object fallback of
`extract_json_from_message` (summary, plan, confidence). -/
def analysisKeys : List String := ["summary", "plan", "confidence"]

/-- The raw-fallback acceptance test: `isinstance(data, dict) and
any key of the allow-list is in data`. -/
def looksLikeStructured : Json → Bool
  | .obj kvs => analysisKeys.any (fun k => objHasKey kvs k)
  | _ => false

/-- The raw-fallback loop: try each regex match from last to first, keep the
first that parses to a dict containing an analysis key. -/
def rawScan : List (List Char) → Option Json
  | [] => none
  | m :: ms =>
      match jsonLoads (String.mk m) with
      | some j => if looksLikeStructured j then some j else rawScan ms
      | none => rawScan ms

/-- `extract_json_from_message`: prefer the last fenced ```json block (its
parse result is returned unchecked, whatever JSON value it is — Python
returns `json.loads(matches[-1])` directly); on no fenced match or a fenced
parse error, fall back to the raw-object scan.  A fenced block holding
`null` is modelled as `some .null`, which every consumer treats exactly like
Python treats the returned `None` (both are falsy). -/
def extract_json_from_message (message : String) : Option Json :=
  let fenced := fencedFindAll (message.data.length + 1) message.data
  match fenced.getLast? with
  | some cap =>
      (match jsonLoads (String.mk cap) with
       | some j => some j
       | none => rawScan ((rawFindAll (message.data.length + 1) message.data).reverse))
  | none => rawScan ((rawFindAll (message.data.length + 1) message.data).reverse)

/-- A transcript entry (a dict with fields type and message in the Python code). -/
structure Msg where
  mtype : String
  message : String
deriving DecidableEq

/-- The agent-authored entries: the list-comprehension filter keeping entries whose type
field equals devin_message. -/
def devinMessages (messages : List Msg) : List Msg :=
  messages.filter (fun m => m.mtype = "devin_message")

/-- the Python `key in value` for the values `extract_json_from_message` can
return: key lookup on dicts, element equality on lists, substring test on
strings, and a `TypeError` (modelled by `.error ()`) on numbers and booleans
— Python raises `TypeError: argument ... is not iterable` there. -/
def pyIn (k : String) : Json → Except Unit Bool
  | .obj kvs => .ok (objHasKey kvs k)
  | .arr elems => .ok (elems.any (fun j => match j with | .str s => s = k | _ => false))
  | .str s => .ok (strContains s.data k.data)
  | _ => .error ()

/-- One step of `parse_scoping_from_messages` / `parse_execution_from_messages`:
walk the agent entries from most recent to oldest and return the first
truthy extraction containing one of the two phase keys; `key1 in d or
key2 in d` evaluates left to right and can raise. -/
def phaseScan (key₁ key₂ : String) : List Msg → Except Unit (Option Json)
  | [] => .ok none
  | m :: rest =>
      match extract_json_from_message m.message with
      | some j =>
          if jsonTruthy j then do
            let b₁ ← pyIn key₁ j
            if b₁ then
              return (some j)
            else
              let b₂ ← pyIn key₂ j
              if b₂ then return (some j) else phaseScan key₁ key₂ rest
          else phaseScan key₁ key₂ rest
      | none => phaseScan key₁ key₂ rest

/-- `parse_scoping_from_messages`: keys `summary` / `plan`. -/
def parse_scoping_from_messages (messages : List Msg) : Except Unit (Option Json) :=
  phaseScan "summary" "plan" (devinMessages messages).reverse

/-- `parse_execution_from_messages`: keys `status` / `branch`. -/
def parse_execution_from_messages (messages : List Msg) : Except Unit (Option Json) :=
  phaseScan "status" "branch" (devinMessages messages).reverse

/-! ## `devin_client.py`: the retry wrapper -/

/-- The retry condition `"5" in str(e)` — a one-character substring test,
i.e. character membership in the stringified `DevinAPIError`. -/
def containsFive (s : String) : Bool :=
  s.data.any (fun c => c = '5')

/-- Trace of one run of the synchronous retry wrapper: the final outcome
(`.error (some e)` re-raises the stringified `DevinAPIError` `e`;
`.error none` is the degenerate `raise last_exception` with
`last_exception = None`, reachable only with `max_retries = 0`) together
with the backoff sleeps performed, in order. -/
structure RetryTrace (α : Type) where
  result : Except (Option String) α
  waits : List ℚ

/-- The loop body of `retry_on_server_error`'s `sync_wrapper`. `attempts i`
is the outcome of the wrapped call on attempt `i` (`.error e` models a
`DevinAPIError` with `str(e) = e`); `fuel` is the number of loop iterations
left, so the Python guard `attempt < max_retries - 1` is `0 < fuel`. -/
def retryAux (attempts : ℕ → Except String α) (backoff_factor : ℚ) :
    ℕ → ℕ → List ℚ → RetryTrace α
  | 0, _, waits => ⟨.error none, waits⟩
  | fuel + 1, i, waits =>
      match attempts i with
      | .ok a => ⟨.ok a, waits⟩
      | .error e =>
          if containsFive e ∧ 0 < fuel then
            retryAux attempts backoff_factor fuel (i + 1) (waits ++ [backoff_factor ^ i])
          else ⟨.error (some e), waits⟩

/-- `retry_on_server_error(max_retries, backoff_factor)` applied to a call
whose successive outcomes are `attempts`. -/
def retry_on_server_error (max_retries : ℕ) (backoff_factor : ℚ)
    (attempts : ℕ → Except String α) : RetryTrace α :=
  retryAux attempts backoff_factor max_retries 0 []

/-! ## `devin_client.py`: the polling loop -/

/-- The remote session view used by the client and the status route
(`DevinSession`); only the fields the embedded code reads are kept. -/
structure SessionView where
  session_id : String
  status : Option String
  status_enum : Option String
  structured_output : Option Json
  messages : Option (List Msg)

/-- ASCII lowering, the Python `str.lower` on the ASCII status strings. -/
def asciiLowerChar (c : Char) : Char :=
  if 'A' ≤ c ∧ c ≤ 'Z' then Char.ofNat (c.toNat + 32) else c

/-- Lower-case a status string. -/
def pyLower (s : String) : String :=
  String.mk (s.data.map asciiLowerChar)

/-- Truthiness of an optional string (Python: `None` and `""` are falsy). -/
def optStrTruthy : Option String → Bool
  | some s => s ≠ ""
  | none => false

/-- The status string the poll loop compares: prefer a truthy `status_enum`,
fall back to a truthy `status`, else `"unknown"`, lower-cased. -/
def statusStrOf (s : SessionView) : String :=
  if optStrTruthy s.status_enum then pyLower (s.status_enum.getD "")
  else if optStrTruthy s.status then pyLower (s.status.getD "")
  else "unknown"

/-- `terminal_states`: finished, blocked, stopped. -/
def terminalStates : List String := ["finished", "blocked", "stopped"]

/-- Trace of a run of `poll_session`: `outcome` is `none` when the supplied
fuel ran out with the loop still spinning, `some (.error ())` for
`DevinTimeoutError` and `some (.ok s)` for a normal return; `fetches` counts
calls to `get_session` and `sleeps` lists the waits performed, in order. -/
structure PollTrace where
  outcome : Option (Except Unit SessionView)
  fetches : ℕ
  sleeps : List ℚ

/-- The `while True` loop of `poll_session`.  `fetch n` is the session
returned by the `n`-th `get_session` call; elapsed wall-clock time is the
sum of the sleeps performed so far (fetches are modelled as instantaneous).
The timeout is checked strictly (`elapsed > timeout`) before each fetch; on
a non-terminal status the loop sleeps `current_interval` and then grows it
by `min (current_interval * 1.5) max_interval`.  The per-tick observer
callback only produces side effects (its exceptions are swallowed), so it
does not appear in the trace. -/
def pollAux (fetch : ℕ → SessionView) (timeout max_interval : ℚ) :
    ℕ → ℕ → ℚ → ℚ → List ℚ → PollTrace
  | 0, n, _, _, sleeps => ⟨none, n, sleeps⟩
  | fuel + 1, n, elapsed, current_interval, sleeps =>
      if elapsed > timeout then ⟨some (.error ()), n, sleeps⟩
      else
        let s := fetch n
        if statusStrOf s ∈ terminalStates then ⟨some (.ok s), n + 1, sleeps⟩
        else
          pollAux fetch timeout max_interval fuel (n + 1) (elapsed + current_interval)
            (min (current_interval * (3 / 2)) max_interval) (sleeps ++ [current_interval])

/-- `poll_session(session_id, interval, timeout)` against the fetch sequence
`fetch`, run for at most `fuel` loop iterations. -/
def poll_session (fetch : ℕ → SessionView) (interval timeout max_interval : ℚ)
    (fuel : ℕ) : PollTrace :=
  pollAux fetch timeout max_interval fuel 0 0 interval []

/-! ## `routes.py`: persisted records and the session endpoints -/

/-- `SessionPhase` of `models.py`. -/
inductive SessionPhase where
  | scope : SessionPhase
  | exec : SessionPhase
deriving DecidableEq

/-- `SessionStatus` of `models.py`. -/
inductive SessionStatus where
  | created : SessionStatus
  | running : SessionStatus
  | blocked : SessionStatus
  | finished : SessionStatus
  | expired : SessionStatus
  | failed : SessionStatus
deriving DecidableEq

/-- A row of the `sessions` table (the Phase Record); presentation-only
columns (`title`, `tags`, `prompt`, timestamps other than `updated_at`) are
elided.  Timestamps are abstract ticks (`ℕ`). -/
structure DBSessionRec where
  session_id : String
  phase : SessionPhase
  repo : String
  issue_number : ℕ
  status : SessionStatus
  last_structured_output : Option Json
  updated_at : ℕ

/-- A row of the `issues` table; only the fields the status endpoint touches
are kept. -/
structure IssueRec where
  repo : String
  number : ℕ
  confidence_score : Option Json
  last_scoped_at : Option ℕ

/-- `db.query(Session).filter_by(session_id=sid).first()`. -/
def findSession (db : List DBSessionRec) (sid : String) : Option DBSessionRec :=
  db.find? (fun r => r.session_id = sid)

/-- `db.query(Issue).filter_by(repo=repo, number=number).first()`. -/
def findIssue (issues : List IssueRec) (repo : String) (number : ℕ) : Option IssueRec :=
  issues.find? (fun i => i.repo = repo ∧ i.number = number)

/-- Mutate the first session row matching `sid` (the row `.first()` returned). -/
def updateFirstSession (sid : String) (f : DBSessionRec → DBSessionRec) :
    List DBSessionRec → List DBSessionRec
  | [] => []
  | r :: rs =>
      if r.session_id = sid then f r :: rs
      else r :: updateFirstSession sid f rs

/-- Mutate the first issue row matching `(repo, number)`. -/
def updateFirstIssue (repo : String) (number : ℕ) (f : IssueRec → IssueRec) :
    List IssueRec → List IssueRec
  | [] => []
  | i :: is_ =>
      if i.repo = repo ∧ i.number = number then f i :: is_
      else i :: updateFirstIssue repo number f is_

/-- The session-storage step shared by `scope_issue` and `execute_issue`:
look the returned session id up; insert a fresh row in `created` state when
absent, otherwise reset the existing row's status to `created` and touch its
timestamp. -/
def store_session (db : List DBSessionRec) (sid : String) (phase : SessionPhase)
    (repo : String) (issue_number : ℕ) (now : ℕ) : List DBSessionRec :=
  match findSession db sid with
  | none => db ++ [⟨sid, phase, repo, issue_number, .created, none, now⟩]
  | some _ =>
      updateFirstSession sid
        (fun r => { r with status := .created, updated_at := now }) db

/-- Number of Phase Records keyed by `sid` (a measure on the table used to
state the idempotency claim, not a piece of the source). -/
def countSession : List DBSessionRec → String → ℕ
  | [], _ => 0
  | r :: rs, sid => (if r.session_id = sid then 1 else 0) + countSession rs sid

/-- Result of `get_session_status`: the `structured_output` field of the
response body together with the database state after the commit. -/
structure StatusResult where
  structured_output : Option Json
  db : List DBSessionRec
  issues : List IssueRec

/-- The `/sessions/{session_id}` endpoint (`get_session_status`), given the
fetched remote session.  `.error ()` models an uncaught Python exception
(the route's `except` turns it into an HTTP 500 and the database session is
never committed, so no state changes).  Two exceptions are reachable: the
transcript fallback iterates `getattr(session, 'messages', [])`, which is
`None` whenever the fetched session carries no transcript (`TypeError`), and
the parsers themselves can raise; `structured_output.get("confidence")`
raises `AttributeError` when a fenced block produced a non-dict truthy
value. -/
def get_session_status (sid : String) (session : SessionView)
    (db : List DBSessionRec) (issues : List IssueRec) (now : ℕ) :
    Except Unit StatusResult := do
  -- Fallback: if structured_output is falsy, parse it from the transcript,
  -- but only when a local Phase Record fixes the phase.
  let so ←
    if ¬ optJsonTruthy session.structured_output then
      match findSession db sid with
      | some rec =>
          (match session.messages with
           | none => Except.error ()
           | some msgs =>
               match rec.phase with
               | .scope => parse_scoping_from_messages msgs
               | .exec => parse_execution_from_messages msgs)
      | none => pure session.structured_output
    else pure session.structured_output
  -- Update database (the second `.first()` query of the route).
  match findSession db sid with
  | none => return ⟨so, db, issues⟩
  | some rec =>
      let newStatus : SessionStatus :=
        if session.status_enum = some "working" then .running else .blocked
      let issues' ←
        if rec.phase = .scope ∧ optJsonTruthy so then
          match so with
          | some (.obj kvs) =>
              (match objGet kvs "confidence" with
               | some .null => pure issues
               | some v =>
                   pure (updateFirstIssue rec.repo rec.issue_number
                     (fun i => { i with confidence_score := some v,
                                        last_scoped_at := some now }) issues)
               | none => pure issues)
          | some _ => Except.error ()
          | none => pure issues
        else pure issues
      return ⟨so,
        updateFirstSession sid
          (fun r => { r with status := newStatus, last_structured_output := so,
                             updated_at := now }) db,
        issues'⟩

/-! ## Concrete scenarios used by the claim checks -/

/-- A one-row sessions table holding the scoping Phase Record of session S1,
tracking issue 42. -/
def dbS1 : List DBSessionRec :=
  [⟨"S1", .scope, "octo/repo", 42, .created, none, 0⟩]

/-- A one-row issues table for issue 42, with no confidence recorded yet. -/
def issues42 : List IssueRec := [⟨"octo/repo", 42, none, none⟩]

/-- C1 scenario: a fetched analysis session whose structured result carries
the out-of-range confidence value 5. -/
def c1_session : SessionView :=
  ⟨"S1", some "working", some "working", some (.obj [("confidence", .num 5)]), none⟩

/-- C2 scenario: remote status code finished, structured result absent, and
a transcript whose agent entry narrates the analysis JSON in a fenced block. -/
def c2_session : SessionView :=
  ⟨"S1", some "Devin is done", some "finished", none,
   some [⟨"devin_message",
     "Analysis complete.\n```json\n\x7b\"summary\": \"done\", \"confidence\": 0.9\x7d\n```\nThanks."⟩]⟩

/-- C2 scenario: the structured result extracted from the transcript. -/
def c2_extracted : Json :=
  .obj [("summary", .str "done"), ("confidence", .num (9 / 10))]

/-- C2 scenario: the response payload and database state the status endpoint
produces. -/
def c2_result : StatusResult :=
  ⟨some c2_extracted,
   [⟨"S1", .scope, "octo/repo", 42, .blocked, some c2_extracted, 7⟩],
   [⟨"octo/repo", 42, some (.num (9 / 10)), some 7⟩]⟩

/-- C3 scenario: attempt outcomes of a call that hits a fatal HTTP 400 whose
body text mentions the number 5, and would succeed if called again. -/
def c3_attempts : ℕ → Except String ℕ :=
  fun n => if n = 0 then .error "Bad request: max is 5" else .ok 0

/-- C4 scenario: a transcript whose latest agent entry carries a raw,
non-fenced JSON object with exactly the implementation keys. -/
def c4_messages : List Msg :=
  [⟨"devin_message", "Created branch. \x7b\"status\": \"done\", \"branch\": \"feat-x\"\x7d"⟩]

/-- C4 scenario: the same raw object extended by one analysis key. -/
def c4_messages_confidence : List Msg :=
  [⟨"devin_message", "\x7b\"status\": \"done\", \"branch\": \"feat-x\", \"confidence\": 0.8\x7d"⟩]

/-- C6 scenario: a transcript whose fenced json block holds a bare number. -/
def c6_messages : List Msg := [⟨"devin_message", "```json\n42\n```"⟩]

/-- C7 witness scenario: two transient server faults, then success. -/
def c7_attempts : ℕ → Except String ℕ :=
  fun n =>
    if n = 0 then .error "Server error 500: boom"
    else if n = 1 then .error "Server error 502: boom"
    else .ok 7

/-- C7 witness scenario: a fatal-classified failure (its message holds no
character 5) on the very first attempt. -/
def c7_attempts_fatal : ℕ → Except String ℕ :=
  fun _ => .error "Unauthorized: Invalid API key"

/-- C7 witness scenario: every attempt fails with a transient server fault,
so the run exhausts all attempts; the last failure differs from the earlier
ones. -/
def c7_attempts_exhaust : ℕ → Except String ℕ :=
  fun n =>
    if n = 0 then .error "Server error 500: a"
    else if n = 1 then .error "Server error 503: b"
    else .error "Server error 502: c"

/-- C8 witness scenario: a session source reporting working on the first
three fetches and finished on the fourth. -/
def c8_fetch : ℕ → SessionView :=
  fun n =>
    if n < 3 then ⟨"S1", none, some "working", none, none⟩
    else ⟨"S1", none, some "finished", none, none⟩

/-- C9 witness scenario: a session source that never reports a terminal
status. -/
def c9_fetch : ℕ → SessionView :=
  fun _ => ⟨"S1", none, some "working", none, none⟩

/-- C10 witness scenario: a fetched session with no structured result but a
perfectly extractable transcript. -/
def c10_session : SessionView :=
  ⟨"S1", some "finished", some "finished", none,
   some [⟨"devin_message", "```json\n\x7b\"summary\": \"done\"\x7d\n```"⟩]⟩

/-! ## Claim checks -/

/-- C1, counterexample: the claim says a confidence value outside 0.0–1.0 is
rejected and treated as absent before being persisted.  On a structured
result carrying confidence 5, the status endpoint stores 5 onto the tracked
issue record unchanged, although 5 exceeds the stated upper bound 1. -/
theorem C1_counterexample :
    get_session_status "S1" c1_session dbS1 issues42 7 =
      .ok ⟨some (.obj [("confidence", .num 5)]),
           [⟨"S1", .scope, "octo/repo", 42, .running,
             some (.obj [("confidence", .num 5)]), 7⟩],
           [⟨"octo/repo", 42, some (.num 5), some 7⟩]⟩ ∧
    ¬((0 : ℚ) ≤ 5 ∧ (5 : ℚ) ≤ 1) :=
  ⟨rfl, by norm_num⟩

set_option maxRecDepth 10000 in
/-- C2, counterexample: on the spec scenario (status code finished, null
structured result, analysis JSON in the transcript) the endpoint does return
the extracted object, but it persists the Phase Record lifecycle status as
blocked, not finished: the update maps every remote status other than
working to blocked. -/
theorem C2_counterexample :
    get_session_status "S1" c2_session dbS1 issues42 7 = .ok c2_result ∧
    (findSession c2_result.db "S1").map (fun r => r.status) =
      some SessionStatus.blocked ∧
    SessionStatus.blocked ≠ SessionStatus.finished :=
  ⟨by with_unfolding_all rfl, rfl, by decide⟩

set_option maxRecDepth 10000 in
/-- C2, amended: on the spec scenario, query-status returns the structured
result extracted from the fenced block of the latest agent entry and persists
the Phase Record lifecycle status as blocked (running is persisted only for
remote status working; the finished state is persisted only by the separate
poll endpoint). -/
theorem C2_amended :
    get_session_status "S1" c2_session dbS1 issues42 7 = .ok c2_result ∧
    c2_result.structured_output =
      some (.obj [("summary", .str "done"), ("confidence", .num (9 / 10))]) ∧
    (findSession c2_result.db "S1").map (fun r => r.status) =
      some SessionStatus.blocked :=
  ⟨by with_unfolding_all rfl, rfl, rfl⟩

/-- C3, code bug: the retry wrapper classifies retryability by the substring
test containsFive on the stringified error, although its own comment says
only 5xx errors are retried.  A fatal HTTP 400 whose message text contains
the character 5 is therefore retried: the run performs a backoff sleep and
takes the second attempt instead of propagating the fatal failure. -/
theorem C3_fatal_400_retried :
    containsFive "Bad request: max is 5" = true ∧
    (retry_on_server_error 3 2 c3_attempts).waits = [1] ∧
    (retry_on_server_error 3 2 c3_attempts).result = .ok 0 :=
  ⟨rfl, rfl, rfl⟩

/-- C4, counterexample: for the implementation phase, a raw non-fenced JSON
object whose keys are exactly the implementation allow-list (status, branch)
is not returned — extraction comes back absent, because the raw-object
fallback only accepts objects containing one of the hard-coded analysis keys
summary, plan, confidence. -/
theorem C4_counterexample :
    parse_execution_from_messages c4_messages = .ok none :=
  rfl

set_option maxRecDepth 10000 in
/-- C4, amended: the raw-object fallback accepts an object for the
implementation phase only when it also contains an analysis key: the object
with keys status and branch alone yields absent, while the same object
extended with a confidence key is returned. -/
theorem C4_amended :
    parse_execution_from_messages c4_messages = .ok none ∧
    parse_execution_from_messages c4_messages_confidence =
      .ok (some (.obj [("status", .str "done"), ("branch", .str "feat-x"),
                       ("confidence", .num (4 / 5))])) :=
  ⟨rfl, by with_unfolding_all rfl⟩

set_option maxRecDepth 10000 in
/-- C6, code bug: extraction can raise.  A fenced json block holding the bare
number 42 makes extract_json_from_message return a non-dict value (violating
its annotated Optional-dict return type), and the subsequent membership test
in parse_scoping_from_messages raises a TypeError, modelled as the error
outcome. -/
theorem C6_fenced_number_raises :
    parse_scoping_from_messages c6_messages = .error () ∧
    extract_json_from_message "```json\n42\n```" = some (.num 42) :=
  ⟨by with_unfolding_all rfl, by with_unfolding_all rfl⟩

/-- Helper: when lookup by session id misses, no row carries that id. -/
theorem countSession_of_findSession_none (db : List DBSessionRec) (sid : String)
    (h : findSession db sid = none) : countSession db sid = 0 := by
  induction db with
  | nil => rfl
  | cons r rs ih =>
    by_cases hr : r.session_id = sid
    · exact absurd h (by simp [findSession, List.find?_cons_of_pos, hr])
    · have h' : findSession rs sid = none := by
        simpa [findSession, List.find?_cons_of_neg, hr] using h
      simp [countSession, hr, ih h']

/-- Helper: when lookup by session id hits, at least one row carries that id. -/
theorem countSession_pos_of_findSession_some (db : List DBSessionRec) (sid : String)
    (r : DBSessionRec) (h : findSession db sid = some r) : 0 < countSession db sid := by
  induction db with
  | nil => simp [findSession] at h
  | cons r₀ rs ih =>
    by_cases hr : r₀.session_id = sid
    · simp [countSession, hr]
    · have h' : findSession rs sid = some r := by
        simpa [findSession, List.find?_cons_of_neg, hr] using h
      have := ih h'
      simp [countSession, hr]
      omega

/-- Helper: counts add across table concatenation. -/
theorem countSession_append (db₁ db₂ : List DBSessionRec) (sid : String) :
    countSession (db₁ ++ db₂) sid = countSession db₁ sid + countSession db₂ sid := by
  induction db₁ with
  | nil => simp [countSession]
  | cons r rs ih => simp [countSession, ih]; omega

/-- Helper: mutating one row in place does not change how many rows carry a
given session id, provided the mutation preserves the id column. -/
theorem countSession_updateFirstSession (db : List DBSessionRec) (sid : String)
    (f : DBSessionRec → DBSessionRec) (hf : ∀ r, (f r).session_id = r.session_id) :
    countSession (updateFirstSession sid f db) sid = countSession db sid := by
  induction db with
  | nil => rfl
  | cons r rs ih =>
    by_cases hr : r.session_id = sid
    · simp [updateFirstSession, countSession, hr, hf r]
    · simp [updateFirstSession, countSession, hr, ih]

/-- C5: when two start-phase calls receive the same session id from the
remote service, the second storage step finds the Phase Record the first one
wrote (or reused) and updates it in place, so exactly one Phase Record keyed
by that session id remains — assuming the table starts with at most one such
row, which is what the primary key on the session id column guarantees. -/
theorem C5_idempotent_store (db : List DBSessionRec) (sid : String)
    (phase : SessionPhase) (repo : String) (issue_number t₁ t₂ : ℕ)
    (h : countSession db sid ≤ 1) :
    countSession
      (store_session (store_session db sid phase repo issue_number t₁)
        sid phase repo issue_number t₂) sid = 1 := by
  have hstep : countSession (store_session db sid phase repo issue_number t₁) sid = 1 := by
    cases h₁ : findSession db sid with
    | none =>
        have h0 := countSession_of_findSession_none db sid h₁
        rw [store_session, h₁, countSession_append, h0]
        simp [countSession]
    | some r =>
        have hpos := countSession_pos_of_findSession_some db sid r h₁
        have hone : countSession db sid = 1 := le_antisymm h hpos
        have hupd := countSession_updateFirstSession db sid
          (fun r => { r with status := .created, updated_at := t₁ }) (fun r => rfl)
        rw [store_session, h₁]
        exact hupd.trans hone
  cases h₂ : findSession (store_session db sid phase repo issue_number t₁) sid with
  | none =>
      have := countSession_of_findSession_none _ sid h₂
      omega
  | some r =>
      have hupd := countSession_updateFirstSession
        (store_session db sid phase repo issue_number t₁) sid
        (fun r => { r with status := .created, updated_at := t₂ }) (fun r => rfl)
      rw [store_session, h₂]
      exact hupd.trans hstep

/-- C5, witness: starting from an empty table, two storage steps for session
S1 leave exactly one Phase Record keyed S1. -/
theorem C5_idempotent_store_witness :
    countSession ([] : List DBSessionRec) "S1" ≤ 1 ∧
    countSession
      (store_session (store_session [] "S1" .scope "octo/repo" 42 1)
        "S1" .scope "octo/repo" 42 2) "S1" = 1 :=
  ⟨by decide, C5_idempotent_store [] "S1" .scope "octo/repo" 42 1 2 (by decide)⟩

/-- Helper: whatever happens, the waits recorded by the retry loop extend the
accumulator by consecutive powers of the backoff factor, one per attempt index
starting at the current attempt. -/
theorem retryAux_waits_shape {α : Type} (attempts : ℕ → Except String α) (b : ℚ) :
    ∀ (fuel i : ℕ) (waits : List ℚ), ∃ m : ℕ,
      (retryAux attempts b fuel i waits).waits =
        waits ++ (List.range' i m).map (fun j => b ^ j) := by
  intro fuel
  induction fuel with
  | zero => exact fun i waits => ⟨0, by simp [retryAux]⟩
  | succ fuel ih =>
    intro i waits
    simp only [retryAux]
    cases hA : attempts i with
    | ok a => exact ⟨0, by simp⟩
    | error e =>
      by_cases hc : containsFive e ∧ 0 < fuel
      · simp only [if_pos hc]
        obtain ⟨m, hm⟩ := ih (i + 1) (waits ++ [b ^ i])
        refine ⟨m + 1, ?_⟩
        rw [hm, List.range'_succ]
        simp
      · simp only [if_neg hc]
        exact ⟨0, by simp⟩

/-- Helper: when the loop reaches attempt `i + d` — the `d` attempts before
it all failed retryable (their messages contain the character 5) — and that
attempt fails either fatal-classified or as the final attempt, the loop
raises exactly that error, having slept only for the `d` earlier retries. -/
theorem retryAux_reaches_last {α : Type} (attempts : ℕ → Except String α) (b : ℚ) :
    ∀ (d fuel i : ℕ) (waits : List ℚ) (e : String),
      d < fuel →
      (∀ j, j < d → ∃ ej, attempts (i + j) = .error ej ∧ containsFive ej = true) →
      attempts (i + d) = .error e →
      (containsFive e = false ∨ d = fuel - 1) →
      (retryAux attempts b fuel i waits).result = .error (some e) ∧
      (retryAux attempts b fuel i waits).waits =
        waits ++ (List.range' i d).map (fun j => b ^ j) := by
  intro d
  induction d with
  | zero =>
    intro fuel i waits e hd hprev hatt hclass
    obtain ⟨f, rfl⟩ : ∃ f, fuel = f + 1 := ⟨fuel - 1, by omega⟩
    have hatt' : attempts i = .error e := by simpa using hatt
    have hcond : ¬(containsFive e = true ∧ 0 < f) := by
      rcases hclass with h5 | hf
      · rintro ⟨h, _⟩
        rw [h5] at h
        exact Bool.false_ne_true h
      · rintro ⟨_, hpos⟩
        omega
    simp only [retryAux, hatt', if_neg hcond]
    simp
  | succ d ih =>
    intro fuel i waits e hd hprev hatt hclass
    obtain ⟨f, rfl⟩ : ∃ f, fuel = f + 1 := ⟨fuel - 1, by omega⟩
    obtain ⟨e₀, he₀, h5e₀⟩ := hprev 0 (Nat.succ_pos d)
    have he₀' : attempts i = .error e₀ := by simpa using he₀
    have hfpos : 0 < f := by omega
    have hres := ih f (i + 1) (waits ++ [b ^ i]) e (by omega)
      (fun j hj => by
        obtain ⟨ej, hej, h5⟩ := hprev (j + 1) (by omega)
        refine ⟨ej, ?_, h5⟩
        rw [show i + 1 + j = i + (j + 1) from by omega]
        exact hej)
      (by rw [show i + 1 + d = i + (d + 1) from by omega]; exact hatt)
      (by
        rcases hclass with h5 | hk
        · exact Or.inl h5
        · exact Or.inr (by omega))
    simp only [retryAux, he₀', if_pos (And.intro h5e₀ hfpos)]
    refine ⟨hres.1, ?_⟩
    rw [hres.2, List.range'_succ]
    simp

/-- C7: over any run of the retry executor with k attempts and backoff
factor b, the wait before retry attempt i + 1 is exactly b ^ i (no jitter);
the waits are monotonically non-decreasing whenever b ≥ 1; and whenever the
run reaches attempt i (all earlier attempts failed retryable) and attempt i
fails either fatal — classified non-retryable by the executor's test on the
error message — or as the final of the k attempts, that last failure is
propagated unchanged and no backoff sleep is performed for it: the run ends
with exactly the i waits that preceded the earlier retries. -/
theorem C7_backoff_exact_monotone_propagates {α : Type} (k : ℕ) (b : ℚ)
    (attempts : ℕ → Except String α) :
    (∀ (j : ℕ) (h : j < (retry_on_server_error k b attempts).waits.length),
        (retry_on_server_error k b attempts).waits.get ⟨j, h⟩ = b ^ j) ∧
    (1 ≤ b → ∀ (j : ℕ) (h₁ : j < (retry_on_server_error k b attempts).waits.length)
        (h₂ : j + 1 < (retry_on_server_error k b attempts).waits.length),
        (retry_on_server_error k b attempts).waits.get ⟨j, h₁⟩ ≤
          (retry_on_server_error k b attempts).waits.get ⟨j + 1, h₂⟩) ∧
    (∀ (i : ℕ) (e : String), i < k →
        (∀ j, j < i → ∃ ej, attempts j = .error ej ∧ containsFive ej = true) →
        attempts i = .error e →
        (containsFive e = false ∨ i = k - 1) →
        (retry_on_server_error k b attempts).result = .error (some e) ∧
        (retry_on_server_error k b attempts).waits.length = i) := by
  obtain ⟨m, hm⟩ := retryAux_waits_shape attempts b k 0 []
  rw [retry_on_server_error]
  have hget : ∀ (j : ℕ) (h : j < (retryAux attempts b k 0 []).waits.length),
      (retryAux attempts b k 0 []).waits.get ⟨j, h⟩ = b ^ j := by
    intro j h
    simp [List.get_eq_getElem, hm, List.getElem_range']
  refine ⟨hget, ?_, ?_⟩
  · intro hb j h₁ h₂
    rw [hget j h₁, hget (j + 1) h₂]
    exact pow_le_pow_right₀ hb (Nat.le_succ j)
  · intro i e hik hprev hatt hclass
    have hmain := retryAux_reaches_last attempts b i k 0 [] e hik
      (fun j hj => by simpa using hprev j hj)
      (by simpa using hatt) hclass
    refine ⟨hmain.1, ?_⟩
    rw [hmain.2]
    simp

/-- C7, witness: with backoff factor 2, two transient faults before success
pin the first wait to 2 ^ 0 and order the first two waits; a fatal-classified
failure on attempt 0 is propagated unchanged with no sleep; and three
transient faults exhaust the attempts, propagating the third (last) failure
unchanged after exactly two sleeps. -/
theorem C7_backoff_witness :
    ((retry_on_server_error 3 2 c7_attempts).waits.get
        ⟨0, by with_unfolding_all decide⟩ = 2 ^ 0 ∧
      (retry_on_server_error 3 2 c7_attempts).waits.get
          ⟨0, by with_unfolding_all decide⟩ ≤
        (retry_on_server_error 3 2 c7_attempts).waits.get
          ⟨1, by with_unfolding_all decide⟩) ∧
    ((retry_on_server_error 3 2 c7_attempts_fatal).result =
        .error (some "Unauthorized: Invalid API key") ∧
      (retry_on_server_error 3 2 c7_attempts_fatal).waits.length = 0) ∧
    ((retry_on_server_error 3 2 c7_attempts_exhaust).result =
        .error (some "Server error 502: c") ∧
      (retry_on_server_error 3 2 c7_attempts_exhaust).waits.length = 2) :=
  ⟨⟨(C7_backoff_exact_monotone_propagates 3 2 c7_attempts).1 0 _,
    (C7_backoff_exact_monotone_propagates 3 2 c7_attempts).2.1 (by norm_num) 0 _ _⟩,
   (C7_backoff_exact_monotone_propagates 3 2 c7_attempts_fatal).2.2 0
     "Unauthorized: Invalid API key" (by decide)
     (fun j hj => absurd hj (Nat.not_lt_zero j)) rfl (Or.inl (by decide)),
   (C7_backoff_exact_monotone_propagates 3 2 c7_attempts_exhaust).2.2 2
     "Server error 502: c" (by decide)
     (fun j hj => by
       interval_cases j
       · exact ⟨"Server error 500: a", rfl, by decide⟩
       · exact ⟨"Server error 503: b", rfl, by decide⟩) rfl (Or.inr rfl)⟩


/-- Helper: one poll tick within budget on a non-terminal status sleeps the
current interval and grows it. -/
theorem pollAux_step (fetch : ℕ → SessionView) (timeout max_interval : ℚ)
    (fuel n : ℕ) (elapsed current_interval : ℚ) (sleeps : List ℚ)
    (hT : ¬ elapsed > timeout) (hnt : statusStrOf (fetch n) ∉ terminalStates) :
    pollAux fetch timeout max_interval (fuel + 1) n elapsed current_interval sleeps =
      pollAux fetch timeout max_interval fuel (n + 1) (elapsed + current_interval)
        (min (current_interval * (3 / 2)) max_interval) (sleeps ++ [current_interval]) := by
  simp [pollAux, hT, hnt]

/-- Helper: one poll tick within budget on a terminal status returns the
fetched session. -/
theorem pollAux_term (fetch : ℕ → SessionView) (timeout max_interval : ℚ)
    (fuel n : ℕ) (elapsed current_interval : ℚ) (sleeps : List ℚ)
    (hT : ¬ elapsed > timeout) (ht : statusStrOf (fetch n) ∈ terminalStates) :
    pollAux fetch timeout max_interval (fuel + 1) n elapsed current_interval sleeps =
      ⟨some (.ok (fetch n)), n + 1, sleeps⟩ := by
  simp [pollAux, hT, ht]

/-- Helper: a poll tick past the budget raises the timeout error without
fetching. -/
theorem pollAux_timeout (fetch : ℕ → SessionView) (timeout max_interval : ℚ)
    (fuel n : ℕ) (elapsed current_interval : ℚ) (sleeps : List ℚ)
    (hT : elapsed > timeout) :
    pollAux fetch timeout max_interval (fuel + 1) n elapsed current_interval sleeps =
      ⟨some (.error ()), n, sleeps⟩ := by
  simp [pollAux, hT]

/-- C8: against a source reporting a non-terminal working status on the
first three fetches and finished on the fourth, and a budget covering the
three sleeps, poll returns the fourth fetch after exactly 4 fetches; the
sleeps between consecutive fetches are the current interval, which grows by
the 1.5 multiplier after each sleep and is capped at the configured maximum. -/
theorem C8_poll_four_fetches (fetch : ℕ → SessionView) (interval timeout max_interval : ℚ)
    (fuel : ℕ) (hi : 0 ≤ interval) (hM : 0 ≤ max_interval)
    (hw : ∀ k, k < 3 → statusStrOf (fetch k) = "working")
    (hf : statusStrOf (fetch 3) = "finished")
    (hT : interval + min (interval * (3 / 2)) max_interval +
        min (min (interval * (3 / 2)) max_interval * (3 / 2)) max_interval ≤ timeout) :
    poll_session fetch interval timeout max_interval (fuel + 4) =
      ⟨some (.ok (fetch 3)), 4,
       [interval, min (interval * (3 / 2)) max_interval,
        min (min (interval * (3 / 2)) max_interval * (3 / 2)) max_interval]⟩ := by
  have h1 : (0 : ℚ) ≤ min (interval * (3 / 2)) max_interval :=
    le_min (by nlinarith) hM
  have h2 : (0 : ℚ) ≤ min (min (interval * (3 / 2)) max_interval * (3 / 2)) max_interval :=
    le_min (by nlinarith) hM
  have hnt : ∀ k, k < 3 → statusStrOf (fetch k) ∉ terminalStates := by
    intro k hk
    rw [hw k hk]
    decide
  rw [poll_session]
  rw [pollAux_step _ _ _ _ _ _ _ _ (by linarith) (hnt 0 (by norm_num))]
  rw [pollAux_step _ _ _ _ _ _ _ _ (by linarith) (hnt 1 (by norm_num))]
  rw [pollAux_step _ _ _ _ _ _ _ _ (by linarith) (hnt 2 (by norm_num))]
  rw [pollAux_term _ _ _ _ _ _ _ _ (by linarith)
    (by rw [hf]; decide)]
  norm_num

/-- C8, witness: with the default configuration (interval 15, timeout 1800,
cap 30), the sleeps are 15, 22.5 and 30 — growth by 1.5 capped at 30 — and
the fourth fetch is returned. -/
theorem C8_poll_four_fetches_witness :
    poll_session c8_fetch 15 1800 30 4 =
      ⟨some (.ok (c8_fetch 3)), 4,
       [15, min (15 * (3 / 2)) 30, min (min (15 * (3 / 2)) 30 * (3 / 2)) 30]⟩ :=
  C8_poll_four_fetches c8_fetch 15 1800 30 0 (by norm_num) (by norm_num)
    (fun k hk => by interval_cases k <;> decide) (by decide)
    (by norm_num [min_def])


/-- Helper: with every sleep bounded below by a positive margin `m` and a
source that never reports a terminal status, enough fuel drives the elapsed
time past the budget: the loop ends in the timeout error, and it performed
exactly one fetch per sleep — the final over-budget check happens before the
would-be next fetch. -/
theorem pollAux_times_out (fetch : ℕ → SessionView) (timeout max_interval m : ℚ)
    (hm : 0 < m) (hMm : m ≤ max_interval)
    (hnt : ∀ n, statusStrOf (fetch n) ∉ terminalStates) :
    ∀ (fuel : ℕ), 1 ≤ fuel → ∀ (n : ℕ) (elapsed current_interval : ℚ) (sleeps : List ℚ),
      m ≤ current_interval → n = sleeps.length →
      timeout + m < elapsed + fuel * m →
      (pollAux fetch timeout max_interval fuel n elapsed current_interval sleeps).outcome =
          some (.error ()) ∧
      (pollAux fetch timeout max_interval fuel n elapsed current_interval sleeps).fetches =
        (pollAux fetch timeout max_interval fuel n elapsed current_interval sleeps).sleeps.length := by
  intro fuel
  induction fuel with
  | zero => omega
  | succ fuel ih =>
    intro _ n elapsed current_interval sleeps hc hn hbud
    by_cases hT : elapsed > timeout
    · rw [pollAux_timeout _ _ _ _ _ _ _ _ hT]
      exact ⟨rfl, hn⟩
    · have hfuel : 1 ≤ fuel := by
        by_contra hf
        have h0 : fuel = 0 := by omega
        rw [h0] at hbud
        push_neg at hT
        simp at hbud
        linarith
      rw [pollAux_step _ _ _ _ _ _ _ _ hT (hnt n)]
      refine ih hfuel (n + 1) (elapsed + current_interval)
        (min (current_interval * (3 / 2)) max_interval) (sleeps ++ [current_interval])
        (le_min (by nlinarith) hMm) (by simp [hn]) ?_
      have : (fuel : ℚ) + 1 = ((fuel + 1 : ℕ) : ℚ) := by push_cast; ring
      push_cast at hbud ⊢
      nlinarith

/-- C9: elapsed time is checked against the budget before each fetch, so
against a source that never reports a terminal status (and positive
configured intervals) the poller, given enough loop fuel, ends in the
distinct timeout error instead of fetching indefinitely — and its fetch
count equals its sleep count: once the budget is exceeded no further fetch
happens. -/
theorem C9_poll_timeout (fetch : ℕ → SessionView) (interval timeout max_interval : ℚ)
    (fuel : ℕ) (hnt : ∀ n, statusStrOf (fetch n) ∉ terminalStates)
    (hi : 0 < interval) (hM : 0 < max_interval) (hfuel : 1 ≤ fuel)
    (hbud : timeout + min interval max_interval < fuel * min interval max_interval) :
    (poll_session fetch interval timeout max_interval fuel).outcome = some (.error ()) ∧
    (poll_session fetch interval timeout max_interval fuel).fetches =
      (poll_session fetch interval timeout max_interval fuel).sleeps.length := by
  rw [poll_session]
  exact pollAux_times_out fetch timeout max_interval (min interval max_interval)
    (lt_min hi hM) (min_le_right _ _) hnt fuel hfuel 0 0 interval []
    (min_le_left _ _) rfl (by linarith)

/-- C9, witness: interval 1, cap 1, budget 3, five ticks of fuel — the run
times out with four fetches and four sleeps. -/
theorem C9_poll_timeout_witness :
    (poll_session c9_fetch 1 3 1 5).outcome = some (.error ()) ∧
    (poll_session c9_fetch 1 3 1 5).fetches =
      (poll_session c9_fetch 1 3 1 5).sleeps.length :=
  C9_poll_timeout c9_fetch 1 3 1 5 (fun _ => by simp only [c9_fetch]; decide)
    (by norm_num) (by norm_num)
    (by norm_num) (by norm_num [min_def])


/-- C10: when the remote session's structured result is absent and no local
Phase Record exists for the session id, the endpoint cannot pick an
extraction allow-list, so the returned structured output is absent — whatever
the transcript contains — and neither the sessions table nor the issues
table changes. -/
theorem C10_no_record_no_fallback (sid : String) (session : SessionView)
    (db : List DBSessionRec) (issues : List IssueRec) (now : ℕ)
    (hdb : findSession db sid = none) (hso : session.structured_output = none) :
    get_session_status sid session db issues now = .ok ⟨none, db, issues⟩ := by
  simp [get_session_status, hdb, hso, optJsonTruthy]
  rfl

/-- C10, witness: session S1 has a transcript whose fenced block would
extract perfectly well, yet with an empty sessions table the endpoint
returns an absent structured output and leaves both tables untouched. -/
theorem C10_no_record_no_fallback_witness :
    get_session_status "S1" c10_session [] issues42 3 = .ok ⟨none, [], issues42⟩ ∧
    parse_scoping_from_messages (c10_session.messages.getD []) =
      .ok (some (.obj [("summary", .str "done")])) :=
  ⟨C10_no_record_no_fallback "S1" c10_session [] issues42 3 rfl rfl,
   by with_unfolding_all rfl⟩

/-- Helper: updating the first issue row matching a key in a way that
preserves the key keeps the lookup pointing at that row, now mutated. -/
theorem findIssue_updateFirstIssue (issues : List IssueRec) (repo : String)
    (number : ℕ) (f : IssueRec → IssueRec) (iss : IssueRec)
    (hf : ∀ i, (f i).repo = i.repo ∧ (f i).number = i.number)
    (h : findIssue issues repo number = some iss) :
    findIssue (updateFirstIssue repo number f issues) repo number = some (f iss) := by
  induction issues with
  | nil => simp [findIssue] at h
  | cons i rest ih =>
    by_cases hi : i.repo = repo ∧ i.number = number
    · have hiss : i = iss := by
        simpa [findIssue, List.find?_cons_of_pos, hi] using h
      subst hiss
      have hfi : (f i).repo = repo ∧ (f i).number = number :=
        ⟨(hf i).1.trans hi.1, (hf i).2.trans hi.2⟩
      simp [updateFirstIssue, hi, findIssue, List.find?_cons_of_pos, hfi]
    · have h' : findIssue rest repo number = some iss := by
        simpa [findIssue, List.find?_cons_of_neg, hi] using h
      have hupd : updateFirstIssue repo number f (i :: rest) =
          i :: updateFirstIssue repo number f rest := by
        simp [updateFirstIssue, hi]
      rw [hupd, findIssue, List.find?_cons_of_neg _ (by simpa using hi)]
      exact ih h'

/-- C1, amended: for an analysis-phase session, query-status propagates any
non-null confidence value of the structured result onto the tracked issue
record exactly as it appears — no 0.0–1.0 range validation happens in this
path (the bounds exist only on the unused ScopingOutput schema), so
out-of-range values are stored rather than rejected. -/
theorem C1_amended_confidence_stored_unvalidated (sid : String) (session : SessionView)
    (db : List DBSessionRec) (issues : List IssueRec) (now : ℕ) (rec : DBSessionRec)
    (kvs : List (String × Json)) (v : Json) (iss : IssueRec)
    (hrec : findSession db sid = some rec) (hphase : rec.phase = .scope)
    (hso : session.structured_output = some (.obj kvs))
    (hconf : objGet kvs "confidence" = some v) (hv : v ≠ .null)
    (hiss : findIssue issues rec.repo rec.issue_number = some iss) :
    ∃ res, get_session_status sid session db issues now = .ok res ∧
      res.structured_output = some (.obj kvs) ∧
      findIssue res.issues rec.repo rec.issue_number =
        some { iss with confidence_score := some v, last_scoped_at := some now } := by
  have hkvs : kvs.isEmpty = false := by
    cases kvs with
    | nil => simp [objGet] at hconf
    | cons p rest => rfl
  have htruthy : optJsonTruthy session.structured_output = true := by
    rw [hso]; simp [optJsonTruthy, jsonTruthy, hkvs]
  refine ⟨⟨some (.obj kvs),
    updateFirstSession sid
      (fun r => { r with
        status := if session.status_enum = some "working" then .running else .blocked,
        last_structured_output := some (.obj kvs), updated_at := now }) db,
    updateFirstIssue rec.repo rec.issue_number
      (fun i => { i with confidence_score := some v, last_scoped_at := some now })
      issues⟩, ?_, rfl, ?_⟩
  · rcases v with _ | b | q | t | el | kv
    · exact absurd rfl hv
    all_goals
      simp [get_session_status, htruthy, hso, hrec, hphase, hconf, hkvs,
        optJsonTruthy, jsonTruthy]
    all_goals rfl
  · exact findIssue_updateFirstIssue issues rec.repo rec.issue_number _ iss
      (fun i => ⟨rfl, rfl⟩) hiss

/-- C1, witness: the out-of-range confidence 5 is propagated verbatim onto
issue 42. -/
theorem C1_amended_witness :
    ∃ res, get_session_status "S1" c1_session dbS1 issues42 7 = .ok res ∧
      res.structured_output = some (.obj [("confidence", .num 5)]) ∧
      findIssue res.issues "octo/repo" 42 =
        some ⟨"octo/repo", 42, some (.num 5), some 7⟩ :=
  C1_amended_confidence_stored_unvalidated "S1" c1_session dbS1 issues42 7
    ⟨"S1", .scope, "octo/repo", 42, .created, none, 0⟩
    [("confidence", .num 5)] (.num 5) ⟨"octo/repo", 42, none, none⟩
    rfl rfl rfl (by with_unfolding_all rfl) (fun h => Json.noConfusion h) rfl

end IssueAuto
